import Mathlib

/-!
Shallow embedding of the certbot-k8s charm (src/src/charm.py) and proofs
about its reconciliation logic.

The charm reacts to lifecycle triggers by recomputing a unit status and,
when preconditions hold, ensuring that a TLS certificate exists as a
Kubernetes Secret for the configured hostname.  External effects
(Kubernetes API, container exec/push/pull, HTTP probe, ingress relation
data) are modelled by an explicit `World` of collaborator responses and a
trace of `Effect`s emitted by a run.
-/

namespace CertbotK8s

/-- Charm configuration options (juju config), as read by the charm. -/
structure Config where
  email : String
  agreeTos : Bool
  serviceHostname : String
  dryRun : Bool
deriving Repr, DecidableEq

/-- Unit status as set by the charm (`ops.model` statuses). -/
inductive Status where
  | Waiting (msg : String)
  | Blocked (msg : String)
  | Active
deriving Repr, DecidableEq

/-- Static facts about the deployment visible to one trigger:
the application name, whether the workload container is reachable
(`container.can_connect()`), and how many ingress relations exist. -/
structure ChEnv where
  appName : String
  canConnect : Bool
  ingressCount : Nat
deriving Repr, DecidableEq

/-- Observable side effects on collaborators, in emission order. -/
inductive Effect where
  | ListSecrets
  | SetIngressHostname (hostname : String)
  | PushProbeFile (path : String)
  | HttpGet (url : String)
  | Exec (argv : List String)
  | PullFile (path : String)
  | CreateSecret (name : String) (data : List (String × String))
  | ReplaceSecret (name : String) (data : List (String × String))
deriving Repr, DecidableEq

/-- Exceptions that can escape a handler: a `kubernetes.client.exceptions.
ApiException` with an HTTP status, or a transport-level `requests`
exception from the probe GET. -/
inductive CharmError where
  | ApiErr (status : Nat)
  | TransportErr
deriving Repr, DecidableEq

/-- Collaborator responses for one trigger: the Secret names the cluster
would list, the current `service-hostname` in the ingress relation data,
the result of the probe GET (`.error ()` = transport-level exception,
`.ok c` = a response with status code `c`), the content `container.pull`
returns for a path, whether the cluster API raises (`some s` = every
API call raises an ApiException with status `s`), and whether the
configured hostname is DNS-resolvable (used only by the spec-modelled
later-revision flow). -/
structure World where
  existingSecrets : List String
  relationHostname : String
  probeResult : Except Unit Nat
  pullFile : String → String
  apiFailure : Option Nat
  hostResolvable : Bool

/-- `_NGINX_WEBROOT` -/
def nginxWebroot : String := "/usr/share/nginx/html"

/-- `_LETS_ENCRYPT_BASE_DIR` -/
def letsEncryptBaseDir : String := "/etc/letsencrypt/live"

/-- `_ACME_CHALLENGE_ROUTE` -/
def acmeChallengeRoute : String := "/.well-known/acme-challenge"

/-- Membership in the character class `[0-9a-zA-Z]` of `_SECRET_NAME_REGEX`. -/
def isAlnumChar (c : Char) : Bool :=
  (decide ('0' ≤ c) && decide (c ≤ '9'))
    || (decide ('a' ≤ c) && decide (c ≤ 'z'))
    || (decide ('A' ≤ c) && decide (c ≤ 'Z'))

/-- `_SECRET_NAME_REGEX.sub("-", hostname)`: replace every character
outside `[0-9a-zA-Z]` by `-`. -/
def secretNameSub (hostname : String) : String :=
  String.mk (hostname.data.map (fun c => if isAlnumChar c then c else '-'))

/-- `"%s-tls" % _SECRET_NAME_REGEX.sub("-", hostname)`: the derived
Kubernetes Secret name for a hostname. -/
def deriveName (hostname : String) : String :=
  secretNameSub hostname ++ "-tls"

/-- UTF-8 encoding of one unicode scalar value (as byte values). -/
def utf8EncodeScalar (n : Nat) : List Nat :=
  if n < 128 then [n]
  else if n < 2048 then [192 + n / 64, 128 + n % 64]
  else if n < 65536 then [224 + n / 4096, 128 + n / 64 % 64, 128 + n % 64]
  else [240 + n / 262144, 128 + n / 4096 % 64, 128 + n / 64 % 64, 128 + n % 64]

/-- `s.encode("utf-8")` as a list of byte values. -/
def utf8Bytes (s : String) : List Nat :=
  (s.data.map (fun c => utf8EncodeScalar c.toNat)).flatten

/-- The base64 digit for a 6-bit value. -/
def b64Digit (n : Nat) : Char :=
  ("ABCDEFGHIJKLMNOPQRSTUVWXYZabcdefghijklmnopqrstuvwxyz0123456789+/".data).getD n 'A'

/-- RFC 4648 base64 of a byte list (`base64.b64encode`). -/
def base64EncodeBytes : List Nat → List Char
  | [] => []
  | [a] => [b64Digit (a / 4), b64Digit (a % 4 * 16), '=', '=']
  | [a, b] => [b64Digit (a / 4), b64Digit (a % 4 * 16 + b / 16), b64Digit (b % 16 * 4), '=']
  | a :: b :: c :: rest =>
      b64Digit (a / 4) :: b64Digit (a % 4 * 16 + b / 16) ::
        b64Digit (b % 16 * 4 + c / 64) :: b64Digit (c % 64) :: base64EncodeBytes rest

/-- `base64.b64encode(s.encode("utf-8")).decode("utf-8")`. -/
def b64utf8 (s : String) : String :=
  String.mk (base64EncodeBytes (utf8Bytes s))

/-- `_refresh_charm_status`: computes (and sets) the unit status, returning
whether the charm is Active.  Embedded as a pure function of the
environment and config; the result pair is (status set, returned bool). -/
def refreshCharmStatus (env : ChEnv) (cfg : Config) : Status × Bool :=
  if !env.canConnect then
    (Status.Waiting "Waiting for Pebble to be ready.", false)
  else if env.ingressCount = 0 then
    (Status.Blocked "Needs an ingress relation.", false)
  else if env.ingressCount > 1 then
    (Status.Blocked "Too many ingress relations.", false)
  else if cfg.email = "" then
    (Status.Blocked "Please configure an email.", false)
  else if !cfg.agreeTos then
    (Status.Blocked
      ("Let's Encrypt requires an agreement to their Terms of Service. " ++
        "Run juju config " ++ env.appName ++ " agree-tos=true"), false)
  else
    (Status.Active, true)

/-- `_secret_exists`: lists the namespace's Secrets via the cluster API
(which may raise) and checks membership of the given name. -/
def secretExists (w : World) (secretName : String) : Except CharmError Bool :=
  match w.apiFailure with
  | some s => .error (.ApiErr s)
  | none => .ok (w.existingSecrets.contains secretName)

/-- The path of the probe file `_setup_ingress_check_file` pushes. -/
def probeFilePath : String :=
  nginxWebroot ++ acmeChallengeRoute ++ "/foo.test"

/-- The URL `_check_ingress_route` fetches. -/
def probeUrl (hostname : String) : String :=
  "http://" ++ hostname ++ acmeChallengeRoute ++ "/foo.test"

/-- `_setup_ingress_route`: records whether the relation data's
`service-hostname` differed from the target, points it at the target and
pushes the probe file; returns (emitted effects, relation_updated). -/
def setupIngressRoute (w : World) (hostname : String) : List Effect × Bool :=
  ([Effect.SetIngressHostname hostname, Effect.PushProbeFile probeFilePath],
    w.relationHostname ≠ hostname)

/-- `_check_ingress_route`: issues the probe GET and succeeds exactly when
the response status code is 200; a transport-level exception propagates. -/
def checkIngressRoute (w : World) (_hostname : String) : Except CharmError Bool :=
  match w.probeResult with
  | .error _ => .error .TransportErr
  | .ok code => .ok (code = 200)

/-- The certbot command `_create_certificate` assembles (before the
optional dry-run flag). -/
def certbotCommand (cfg : Config) (hostname : String) : List String :=
  ["certbot", "certonly", "--agree-tos", "-n", "-m", cfg.email,
    "-d", hostname, "--webroot", "--webroot-path", nginxWebroot]

/-- `_create_certificate`: executes certbot in the workload (with
`--dry-run` appended when the config flag is set), then either returns the
fixed placeholder pair (dry-run) or pulls the produced certificate chain
and key from the workload filesystem.  Returns (effects, cert, key). -/
def createCertificate (w : World) (cfg : Config) (hostname : String) :
    List Effect × String × String :=
  let command := certbotCommand cfg hostname ++ (if cfg.dryRun then ["--dry-run"] else [])
  if cfg.dryRun then
    ([Effect.Exec command], "fake-cert", "fake-key")
  else
    let basePath := letsEncryptBaseDir ++ "/" ++ hostname
    let certPath := basePath ++ "/fullchain.pem"
    let keyPath := basePath ++ "/privkey.pem"
    ([Effect.Exec command, Effect.PullFile certPath, Effect.PullFile keyPath],
      w.pullFile certPath, w.pullFile keyPath)

/-- The Secret body `_create_secret` builds: base64-encoded cert and key
under the TLS data keys. -/
def secretData (cert key : String) : List (String × String) :=
  [("tls.crt", b64utf8 cert), ("tls.key", b64utf8 key)]

/-- `_create_secret`: creates the Secret via the cluster API (which may
raise) with base64-encoded cert and key. -/
def createSecret (w : World) (secretName cert key : String) :
    Except CharmError (List Effect) :=
  match w.apiFailure with
  | some s => .error (.ApiErr s)
  | none => .ok [Effect.CreateSecret secretName (secretData cert key)]

/-- Result of running `_ensure_certificate` once: the effects emitted, the
status it set (if any), and whether the event was deferred. -/
structure EnsureOutcome where
  trace : List Effect
  status : Option Status
  deferred : Bool
deriving Repr, DecidableEq

/-- `_ensure_certificate`: the automatic ensure-certificate flow of
src/src/charm.py (no hostname → no-op; existing Secret → no-op; route
setup changed the relation → wait and defer; probe not 200 → wait and
defer; else run certbot, create the Secret, point the ingress back at the
app and go Active). -/
def ensureCertificate (w : World) (cfg : Config) (appName : String) :
    Except CharmError EnsureOutcome :=
  let hostname := cfg.serviceHostname
  if hostname = "" then
    .ok ⟨[], none, false⟩
  else
    let secretName := deriveName hostname
    match secretExists w secretName with
    | .error e => .error e
    | .ok true => .ok ⟨[Effect.ListSecrets], none, false⟩
    | .ok false =>
      let (setupFx, relationUpdated) := setupIngressRoute w hostname
      let preTrace := Effect.ListSecrets :: setupFx
      if relationUpdated then
        .ok ⟨preTrace,
          some (.Waiting ("Setting up an Ingress Route for " ++ hostname ++
            "'s HTTP Challenge.")), true⟩
      else
        match checkIngressRoute w hostname with
        | .error e => .error e
        | .ok reachable =>
          let getTrace := preTrace ++ [Effect.HttpGet (probeUrl hostname)]
          if !reachable then
            .ok ⟨getTrace,
              some (.Waiting "Cannot reach test file using Ingress Route. Retrying."),
              true⟩
          else
            let (certFx, cert, key) := createCertificate w cfg hostname
            match createSecret w secretName cert key with
            | .error e => .error e
            | .ok secFx =>
              .ok ⟨getTrace ++ certFx ++ secFx ++
                  [Effect.SetIngressHostname appName],
                some .Active, false⟩

/-- Result of one `_on_config_changed` trigger that did not raise. -/
structure TriggerOutcome where
  trace : List Effect
  status : Status
  deferred : Bool
deriving Repr, DecidableEq

/-- `_on_config_changed`: refresh the status; when Active run the ensure
flow; catch only `ApiException` with status 403 and map it to the
trust-remediation Blocked status, re-raising every other exception. -/
def onConfigChanged (env : ChEnv) (w : World) (cfg : Config) :
    Except CharmError TriggerOutcome :=
  let (st, isActive) := refreshCharmStatus env cfg
  if isActive then
    match ensureCertificate w cfg env.appName with
    | .ok o => .ok ⟨o.trace, o.status.getD st, o.deferred⟩
    | .error (.ApiErr s) =>
      if s = 403 then
        .ok ⟨[], .Blocked ("Insufficient permissions, try `juju trust " ++
          env.appName ++ " --scope=cluster`"), false⟩
      else .error (.ApiErr s)
    | .error e => .error e
  else
    .ok ⟨[], st, false⟩

/-- Outcome of an action handler: the message of a raised exception (if
any), the value passed to `event.set_results` (if called), and any unit
status the handler set. -/
structure ActionOutcome where
  failed : Option String
  results : Option String
  statusSet : Option Status
deriving Repr, DecidableEq

/-- `_on_get_secret_name_action`: validates email and agree-tos, then the
hostname, then that the derived Secret exists, raising a descriptive
exception on each missing precondition; on success sets the derived
secret name as the action result.  Never touches the unit status. -/
def onGetSecretNameAction (w : World) (cfg : Config) :
    Except CharmError ActionOutcome :=
  if cfg.email = "" ∨ cfg.agreeTos = false then
    .ok ⟨some "Required configuration options are not set. Check the charm status.",
      none, none⟩
  else if cfg.serviceHostname = "" then
    .ok ⟨some "service-hostname is not set.", none, none⟩
  else
    let secretName := deriveName cfg.serviceHostname
    match secretExists w secretName with
    | .error e => .error e
    | .ok false =>
      .ok ⟨some ("Secret for '" ++ cfg.serviceHostname ++ "' does not exist."),
        none, none⟩
    | .ok true => .ok ⟨none, some secretName, none⟩

/-- Modelled from the spec: the later-revision automatic ensure flow whose
`_resolve_hostname` step is exercised by tests/test_charm.py but absent
from src/src/charm.py.  Per spec section 4.2, after the Secret-existence
short-circuit the ChallengeSetup step first checks that the hostname is
DNS-resolvable and, when it is not, fails with a resolution error naming
the hostname, surfaced as a Blocked status on the automatic path, before
any challenge setup (route pointing, probe-file push) is performed and
without deferring the event. -/
def ensureCertificateR (w : World) (cfg : Config) (appName : String) :
    Except CharmError EnsureOutcome :=
  let hostname := cfg.serviceHostname
  if hostname = "" then
    .ok ⟨[], none, false⟩
  else
    let secretName := deriveName hostname
    match secretExists w secretName with
    | .error e => .error e
    | .ok true => .ok ⟨[Effect.ListSecrets], none, false⟩
    | .ok false =>
      if !w.hostResolvable then
        .ok ⟨[Effect.ListSecrets],
          some (.Blocked ("Cannot resolve hostname: '" ++ hostname ++ "'")), false⟩
      else
        let (setupFx, relationUpdated) := setupIngressRoute w hostname
        let preTrace := Effect.ListSecrets :: setupFx
        if relationUpdated then
          .ok ⟨preTrace,
            some (.Waiting ("Setting up an Ingress Route for " ++ hostname ++
              "'s HTTP Challenge.")), true⟩
        else
          match checkIngressRoute w hostname with
          | .error e => .error e
          | .ok reachable =>
            let getTrace := preTrace ++ [Effect.HttpGet (probeUrl hostname)]
            if !reachable then
              .ok ⟨getTrace,
                some (.Waiting "Cannot reach test file using Ingress Route. Retrying."),
                true⟩
            else
              let (certFx, cert, key) := createCertificate w cfg hostname
              match createSecret w secretName cert key with
              | .error e => .error e
              | .ok secFx =>
                .ok ⟨getTrace ++ certFx ++ secFx ++
                    [Effect.SetIngressHostname appName],
                  some .Active, false⟩

/-- Modelled from the spec: `_on_config_changed` of the later revision,
wired to the resolution-checking ensure flow; the exception handling is
that of src/src/charm.py. -/
def onConfigChangedR (env : ChEnv) (w : World) (cfg : Config) :
    Except CharmError TriggerOutcome :=
  let (st, isActive) := refreshCharmStatus env cfg
  if isActive then
    match ensureCertificateR w cfg env.appName with
    | .ok o => .ok ⟨o.trace, o.status.getD st, o.deferred⟩
    | .error (.ApiErr s) =>
      if s = 403 then
        .ok ⟨[], .Blocked ("Insufficient permissions, try `juju trust " ++
          env.appName ++ " --scope=cluster`"), false⟩
      else .error (.ApiErr s)
    | .error e => .error e
  else
    .ok ⟨[], st, false⟩

/-- Modelled from the spec: `_generate_certificate_and_secret` (absent from
src/src/charm.py, exercised by tests/test_charm.py): run certificate
acquisition, then create the Secret if absent or replace it in place if
one already exists under that name (spec section 4.2, SecretWrite). -/
def generateCertificateAndSecret (w : World) (cfg : Config)
    (hostname secretName : String) : Except CharmError (List Effect) :=
  match w.apiFailure with
  | some s => .error (.ApiErr s)
  | none =>
    let (certFx, cert, key) := createCertificate w cfg hostname
    let writeFx :=
      if w.existingSecrets.contains secretName then
        Effect.ReplaceSecret secretName (secretData cert key)
      else
        Effect.CreateSecret secretName (secretData cert key)
    .ok (Effect.ListSecrets :: certFx ++ [writeFx])

/-- Result of the renew-certificate action: the raised failure message (if
any), the `event.set_results` value (if set), and the emitted effects. -/
structure RenewOutcome where
  failed : Option String
  results : Option String
  trace : List Effect
deriving Repr, DecidableEq

/-- Modelled from the spec: `_on_renew_certificate_action` (absent from
src/src/charm.py, exercised by tests/test_charm.py).  Per spec section
4.3 it validates that the hostname is configured ("service-hostname is
not set.") and DNS-resolvable (failure naming the hostname), re-runs
challenge setup/verify with a bounded retry budget (the world being
fixed within one action, an unreachable route exhausts the budget and
fails terminally), then unconditionally generates the certificate and
creates-or-replaces the Secret regardless of its existence, returning a
confirmation message naming the hostname; cluster-API errors propagate
unmodified and there is no route teardown. -/
def onRenewCertificateAction (w : World) (cfg : Config) :
    Except CharmError RenewOutcome :=
  let hostname := cfg.serviceHostname
  if hostname = "" then
    .ok ⟨some "service-hostname is not set.", none, []⟩
  else if !w.hostResolvable then
    .ok ⟨some ("Cannot resolve hostname: '" ++ hostname ++ "'"), none, []⟩
  else
    let secretName := deriveName hostname
    let (setupFx, _) := setupIngressRoute w hostname
    match checkIngressRoute w hostname with
    | .error e => .error e
    | .ok reachable =>
      let preTrace := setupFx ++ [Effect.HttpGet (probeUrl hostname)]
      if !reachable then
        .ok ⟨some "Cannot reach test file using Ingress Route.", none, preTrace⟩
      else
        match generateCertificateAndSecret w cfg hostname secretName with
        | .error e => .error e
        | .ok genFx =>
          .ok ⟨none, some ("Certificate renewed for " ++ hostname),
            preTrace ++ genFx⟩

/-- Effects that mutate a collaborator (subprocess execution, probe-file
write, ingress-binding change, Secret creation or replacement). -/
def isMutatingEffect : Effect → Bool
  | .Exec _ => true
  | .PushProbeFile _ => true
  | .SetIngressHostname _ => true
  | .CreateSecret _ _ => true
  | .ReplaceSecret _ _ => true
  | _ => false

/-- The preconditions whose absence makes `get-secret-name` fail: email
configured, terms agreed, hostname configured, derived Secret existing. -/
def getSecretPrecondMissing (w : World) (cfg : Config) : Prop :=
  cfg.email = "" ∨ cfg.agreeTos = false ∨ cfg.serviceHostname = "" ∨
    deriveName cfg.serviceHostname ∉ w.existingSecrets

instance (w : World) (cfg : Config) : Decidable (getSecretPrecondMissing w cfg) := by
  unfold getSecretPrecondMissing; infer_instance

/-- Replays a trace onto the world: pointing the ingress updates the
relation data, creating a Secret adds its name to the cluster's list. -/
def applyEffect (w : World) (e : Effect) : World :=
  match e with
  | .SetIngressHostname h => { w with relationHostname := h }
  | .CreateSecret n _ => { w with existingSecrets := n :: w.existingSecrets }
  | _ => w

/-- Replays a whole trace onto the world. -/
def applyTrace (w : World) (fx : List Effect) : World :=
  fx.foldl applyEffect w

/-- The end-to-end scenario's configuration. -/
def cfgE2E : Config := ⟨"foo@li.sh", true, "foo.li.sh", false⟩

/-- The end-to-end scenario's config with the dry-run flag set. -/
def cfgDry : Config := ⟨"foo@li.sh", true, "foo.li.sh", true⟩

/-- The end-to-end scenario's environment: workload reachable, exactly one
ingress relation, application named certbot-k8s. -/
def envE2E : ChEnv := ⟨"certbot-k8s", true, 1⟩

/-- Workload filesystem contents after certbot ran for foo.li.sh. -/
def pullE2E : String → String := fun p =>
  if p = "/etc/letsencrypt/live/foo.li.sh/fullchain.pem" then "some_cert"
  else if p = "/etc/letsencrypt/live/foo.li.sh/privkey.pem" then "some_key"
  else ""

/-- First trigger's world: no Secret, ingress relation still pointing at
the application itself, probe would answer 404. -/
def worldE2E1 : World :=
  ⟨[], "certbot-k8s", .ok 404, pullE2E, none, true⟩

/-- The effects the first trigger emits. -/
def trace1E2E : List Effect :=
  [.ListSecrets, .SetIngressHostname "foo.li.sh", .PushProbeFile probeFilePath]

/-- Second trigger's world: the first trigger's effects applied, probe
still answering 404. -/
def worldE2E2 : World :=
  { applyTrace worldE2E1 trace1E2E with probeResult := .ok 404 }

/-- The effects the second trigger emits. -/
def trace2E2E : List Effect :=
  trace1E2E ++ [.HttpGet (probeUrl "foo.li.sh")]

/-- Third trigger's world: the probe now answers 200. -/
def worldE2E3 : World :=
  { applyTrace worldE2E2 trace2E2E with probeResult := .ok 200 }

/-- A world in which every cluster-API call raises a 403 ApiException. -/
def worldApi403 : World :=
  { worldE2E1 with apiFailure := some 403 }

/-- A world in which every cluster-API call raises a 500 ApiException. -/
def worldApi500 : World :=
  { worldE2E1 with apiFailure := some 500 }

/-- A world in which the probe GET raises a transport-level exception. -/
def worldProbeErr : World :=
  { worldE2E2 with probeResult := .error () }

/-- A world in which the derived Secret for foo.li.sh already exists. -/
def worldSecretExists : World :=
  { worldE2E1 with existingSecrets := ["foo-li-sh-tls"] }

/-- A world in which foo.li.sh is not DNS-resolvable. -/
def worldUnresolvable : World :=
  { worldE2E1 with hostResolvable := false }

/-- A world for the renew action: the derived Secret already exists and
the probe answers 200. -/
def worldRenew : World :=
  { worldSecretExists with probeResult := .ok 200 }

/-- C1: the status evaluation checks its conditions in strict
short-circuit order: an unreachable workload gives Waiting regardless of
any other configuration; otherwise no ingress relation gives
Blocked "Needs an ingress relation."; otherwise more than one ingress
relation gives Blocked "Too many ingress relations."; otherwise an empty
email gives a Blocked status asking to configure an email; otherwise an
unset agree-tos gives a Blocked terms-of-service message mentioning the
application name; otherwise the status is Active. -/
theorem refresh_status_short_circuit_order (env : ChEnv) (cfg : Config) :
    (env.canConnect = false →
      refreshCharmStatus env cfg =
        (.Waiting "Waiting for Pebble to be ready.", false)) ∧
    (env.canConnect = true → env.ingressCount = 0 →
      refreshCharmStatus env cfg = (.Blocked "Needs an ingress relation.", false)) ∧
    (env.canConnect = true → env.ingressCount > 1 →
      refreshCharmStatus env cfg = (.Blocked "Too many ingress relations.", false)) ∧
    (env.canConnect = true → env.ingressCount = 1 → cfg.email = "" →
      refreshCharmStatus env cfg = (.Blocked "Please configure an email.", false)) ∧
    (env.canConnect = true → env.ingressCount = 1 → cfg.email ≠ "" →
      cfg.agreeTos = false →
      refreshCharmStatus env cfg =
        (.Blocked ("Let's Encrypt requires an agreement to their Terms of Service. " ++
          "Run juju config " ++ env.appName ++ " agree-tos=true"), false)) ∧
    (env.canConnect = true → env.ingressCount = 1 → cfg.email ≠ "" →
      cfg.agreeTos = true →
      refreshCharmStatus env cfg = (.Active, true)) := by
  refine ⟨?_, ?_, ?_, ?_, ?_, ?_⟩ <;> intros <;>
    (simp_all [refreshCharmStatus]; try omega)

/-- Witness for C1: each branch of the status evaluation at a concrete
environment and configuration. -/
theorem refresh_status_short_circuit_order_witness :
    refreshCharmStatus ⟨"certbot-k8s", false, 1⟩ cfgE2E =
      (.Waiting "Waiting for Pebble to be ready.", false) ∧
    refreshCharmStatus ⟨"certbot-k8s", true, 0⟩ cfgE2E =
      (.Blocked "Needs an ingress relation.", false) ∧
    refreshCharmStatus ⟨"certbot-k8s", true, 2⟩ cfgE2E =
      (.Blocked "Too many ingress relations.", false) ∧
    refreshCharmStatus envE2E ⟨"", true, "foo.li.sh", false⟩ =
      (.Blocked "Please configure an email.", false) ∧
    refreshCharmStatus envE2E ⟨"foo@li.sh", false, "foo.li.sh", false⟩ =
      (.Blocked ("Let's Encrypt requires an agreement to their Terms of Service. " ++
        "Run juju config " ++ "certbot-k8s" ++ " agree-tos=true"), false) ∧
    refreshCharmStatus envE2E cfgE2E = (.Active, true) :=
  ⟨(refresh_status_short_circuit_order _ _).1 rfl,
   (refresh_status_short_circuit_order _ _).2.1 rfl rfl,
   (refresh_status_short_circuit_order _ _).2.2.1 rfl (by decide),
   (refresh_status_short_circuit_order _ _).2.2.2.1 rfl rfl rfl,
   (refresh_status_short_circuit_order _ _).2.2.2.2.1 rfl rfl (by decide) rfl,
   (refresh_status_short_circuit_order _ _).2.2.2.2.2 rfl rfl (by decide) rfl⟩

/-- C2: for every hostname, if a Secret named deriveName of that hostname
already exists, the automatic ensure-certificate flow terminates right
after the existence check: the only effect emitted is the Secret listing,
so no subprocess runs, no probe file is written, the ingress binding is
untouched and no Secret is created or replaced. -/
theorem ensure_existing_secret_frame (w : World) (cfg : Config) (app : String)
    (hh : cfg.serviceHostname ≠ "")
    (hs : deriveName cfg.serviceHostname ∈ w.existingSecrets)
    (ha : w.apiFailure = none) :
    ensureCertificate w cfg app = .ok ⟨[Effect.ListSecrets], none, false⟩ ∧
    ∀ o, ensureCertificate w cfg app = .ok o →
      ∀ e ∈ o.trace, isMutatingEffect e = false := by
  have hcontains : w.existingSecrets.contains (deriveName cfg.serviceHostname) = true := by
    simpa [List.contains] using List.elem_iff.mpr hs
  have h1 : ensureCertificate w cfg app = .ok ⟨[Effect.ListSecrets], none, false⟩ := by
    simp [ensureCertificate, secretExists, ha, hh, hcontains, hs]
  refine ⟨h1, ?_⟩
  intro o ho e he
  rw [h1] at ho
  simp only [Except.ok.injEq] at ho
  subst ho
  simp only [List.mem_singleton] at he
  subst he
  rfl

/-- Witness for C2: the automatic flow for foo.li.sh with the Secret
foo-li-sh-tls already present only lists the Secrets. -/
theorem ensure_existing_secret_frame_witness :
    ensureCertificate worldSecretExists cfgE2E "certbot-k8s" =
      .ok ⟨[Effect.ListSecrets], none, false⟩ :=
  (ensure_existing_secret_frame worldSecretExists cfgE2E "certbot-k8s"
    (by decide) (by decide) rfl).1

/-- C9: deriveName of a hostname equals the hostname with every character
outside the class 0-9, a-z, A-Z replaced by a dash, followed by the
suffix -tls; it is deterministic and every character of its output lies
in that class or is a dash. -/
theorem derive_name_characters (h1 h2 : String) (heq : h1 = h2) :
    deriveName h1 = deriveName h2 ∧
    deriveName h1 =
      String.mk (h1.data.map (fun c => if isAlnumChar c then c else '-')) ++ "-tls" ∧
    ∀ c ∈ (deriveName h1).data, isAlnumChar c = true ∨ c = '-' := by
  refine ⟨heq ▸ rfl, rfl, ?_⟩
  intro c hc
  have hdata : (deriveName h1).data
      = h1.data.map (fun c => if isAlnumChar c then c else '-') ++ ['-', 't', 'l', 's'] := rfl
  rw [hdata] at hc
  rcases List.mem_append.mp hc with hm | hm
  · rcases List.mem_map.mp hm with ⟨a, _, ha⟩
    by_cases hA : isAlnumChar a
    · left
      rw [← ha]
      simp [hA]
    · right
      rw [← ha]
      simp [hA]
  · simp only [List.mem_cons, List.not_mem_nil, or_false] at hm
    rcases hm with rfl | rfl | rfl | rfl
    · right; rfl
    · left; decide
    · left; decide
    · left; decide

/-- C3: with email foo@li.sh, agree-tos set, service-hostname foo.li.sh,
no existing Secret and a probe answering 404 then 200, the first trigger
writes the probe file and leaves the unit Waiting; the second trigger
issues the HTTP GET, sees 404 and stays Waiting; the third trigger
executes certbot with exactly the expected argv, creates the Secret
foo-li-sh-tls holding the base64-encoded pulled certificate and key, and
sets the status Active. -/
theorem end_to_end_three_triggers :
    onConfigChanged envE2E worldE2E1 cfgE2E =
      .ok ⟨trace1E2E,
        .Waiting "Setting up an Ingress Route for foo.li.sh's HTTP Challenge.", true⟩ ∧
    Effect.PushProbeFile probeFilePath ∈ trace1E2E ∧
    onConfigChanged envE2E worldE2E2 cfgE2E =
      .ok ⟨trace2E2E,
        .Waiting "Cannot reach test file using Ingress Route. Retrying.", true⟩ ∧
    Effect.HttpGet "http://foo.li.sh/.well-known/acme-challenge/foo.test" ∈ trace2E2E ∧
    onConfigChanged envE2E worldE2E3 cfgE2E =
      .ok ⟨trace2E2E ++
        [.Exec ["certbot", "certonly", "--agree-tos", "-n", "-m", "foo@li.sh",
            "-d", "foo.li.sh", "--webroot", "--webroot-path", "/usr/share/nginx/html"],
          .PullFile "/etc/letsencrypt/live/foo.li.sh/fullchain.pem",
          .PullFile "/etc/letsencrypt/live/foo.li.sh/privkey.pem",
          .CreateSecret "foo-li-sh-tls" (secretData "some_cert" "some_key"),
          .SetIngressHostname "certbot-k8s"],
        .Active, false⟩ ∧
    worldE2E3.pullFile "/etc/letsencrypt/live/foo.li.sh/fullchain.pem" = "some_cert" ∧
    worldE2E3.pullFile "/etc/letsencrypt/live/foo.li.sh/privkey.pem" = "some_key" ∧
    secretData "some_cert" "some_key" =
      [("tls.crt", "c29tZV9jZXJ0"), ("tls.key", "c29tZV9rZXk=")] := by
  exact ⟨rfl, by decide, rfl, by decide, rfl, rfl, rfl, by decide⟩

/-- C4: during the automatic ensure-certificate flow, a cluster-API error
with status 403 is caught and mapped to a Blocked status containing the
application name and the juju-trust remediation, without deferring the
event; a cluster-API error with any other status propagates unhandled. -/
theorem api_error_403_blocked_other_propagates (env : ChEnv) (w : World)
    (cfg : Config) (s : Nat)
    (hA : refreshCharmStatus env cfg = (.Active, true))
    (hE : ensureCertificate w cfg env.appName = .error (.ApiErr s)) :
    onConfigChanged env w cfg =
      if s = 403 then
        .ok ⟨[], .Blocked ("Insufficient permissions, try `juju trust " ++
          env.appName ++ " --scope=cluster`"), false⟩
      else
        .error (.ApiErr s) := by
  simp [onConfigChanged, hA, hE]

/-- Witness for C4: a 403 from the Secret listing becomes the Blocked
trust-remediation status, while a 500 escapes the handler. -/
theorem api_error_403_blocked_other_propagates_witness :
    onConfigChanged envE2E worldApi403 cfgE2E =
      .ok ⟨[], .Blocked "Insufficient permissions, try `juju trust certbot-k8s --scope=cluster`",
        false⟩ ∧
    onConfigChanged envE2E worldApi500 cfgE2E = .error (.ApiErr 500) := by
  constructor
  · have h := api_error_403_blocked_other_propagates envE2E worldApi403 cfgE2E 403 rfl rfl
    simpa using h
  · have h := api_error_403_blocked_other_propagates envE2E worldApi500 cfgE2E 500 rfl rfl
    simpa using h

/-- Counterexample for C6: with the dry-run config set, certificate
creation still invokes the certificate tool (one Exec effect, with
--dry-run appended), refuting that the real invocation is skipped. -/
theorem dry_run_still_invokes_tool :
    Effect.Exec ["certbot", "certonly", "--agree-tos", "-n", "-m", "foo@li.sh",
      "-d", "foo.li.sh", "--webroot", "--webroot-path", "/usr/share/nginx/html",
      "--dry-run"] ∈ (createCertificate worldE2E1 cfgDry "foo.li.sh").1 := by
  decide

/-- C6 as amended: when the dry-run config option is set, certificate
creation invokes the certificate tool with an added --dry-run flag,
substitutes the deterministic placeholder pair fake-cert/fake-key as
certificate and key, and the Secret is written with those placeholder
values without reading anything from the workload filesystem (the run
pulls no file). -/
theorem dry_run_placeholder_secret (w : World) (cfg : Config) (app : String)
    (hd : cfg.dryRun = true)
    (hh : cfg.serviceHostname ≠ "")
    (ha : w.apiFailure = none)
    (hs : deriveName cfg.serviceHostname ∉ w.existingSecrets)
    (hrel : w.relationHostname = cfg.serviceHostname)
    (hp : w.probeResult = .ok 200) :
    createCertificate w cfg cfg.serviceHostname =
      ([Effect.Exec (certbotCommand cfg cfg.serviceHostname ++ ["--dry-run"])],
        "fake-cert", "fake-key") ∧
    ensureCertificate w cfg app =
      .ok ⟨[Effect.ListSecrets, Effect.SetIngressHostname cfg.serviceHostname,
          Effect.PushProbeFile probeFilePath, Effect.HttpGet (probeUrl cfg.serviceHostname),
          Effect.Exec (certbotCommand cfg cfg.serviceHostname ++ ["--dry-run"]),
          Effect.CreateSecret (deriveName cfg.serviceHostname)
            (secretData "fake-cert" "fake-key"),
          Effect.SetIngressHostname app],
        some .Active, false⟩ := by
  have hc : createCertificate w cfg cfg.serviceHostname =
      ([Effect.Exec (certbotCommand cfg cfg.serviceHostname ++ ["--dry-run"])],
        "fake-cert", "fake-key") := by
    simp [createCertificate, hd]
  refine ⟨hc, ?_⟩
  simp [ensureCertificate, secretExists, ha, hh, hs, setupIngressRoute, hrel,
    checkIngressRoute, hp, hc, createSecret]

/-- Witness for C6 as amended: the dry-run flow for foo.li.sh. -/
theorem dry_run_placeholder_secret_witness :
    ensureCertificate worldE2E3 cfgDry "certbot-k8s" =
      .ok ⟨[Effect.ListSecrets, Effect.SetIngressHostname "foo.li.sh",
          Effect.PushProbeFile probeFilePath, Effect.HttpGet (probeUrl "foo.li.sh"),
          Effect.Exec ["certbot", "certonly", "--agree-tos", "-n", "-m", "foo@li.sh",
            "-d", "foo.li.sh", "--webroot", "--webroot-path", "/usr/share/nginx/html",
            "--dry-run"],
          Effect.CreateSecret "foo-li-sh-tls" (secretData "fake-cert" "fake-key"),
          Effect.SetIngressHostname "certbot-k8s"],
        some .Active, false⟩ :=
  (dry_run_placeholder_secret worldE2E3 cfgDry "certbot-k8s"
    rfl (by decide) rfl (by decide) rfl rfl).2

/-- C10: in challenge verification only the HTTP status code decides the
outcome (200 reaches issuance, any other code suspends with a Waiting
retry status and a deferred event); a transport-level failure of the GET
is caught nowhere in the automatic path, so the trigger ends in an
uncaught error and produces no status at all. -/
theorem probe_transport_error_fatal (env : ChEnv) (w : World) (cfg : Config)
    (hA : refreshCharmStatus env cfg = (.Active, true))
    (hh : cfg.serviceHostname ≠ "")
    (ha : w.apiFailure = none)
    (hs : deriveName cfg.serviceHostname ∉ w.existingSecrets)
    (hrel : w.relationHostname = cfg.serviceHostname) :
    (∀ code, w.probeResult = .ok code →
      checkIngressRoute w cfg.serviceHostname = .ok (decide (code = 200))) ∧
    (w.probeResult = .error () →
      onConfigChanged env w cfg = .error .TransportErr) ∧
    (w.probeResult = .error () → ∀ r, onConfigChanged env w cfg ≠ .ok r) ∧
    (∀ code, w.probeResult = .ok code → code ≠ 200 →
      onConfigChanged env w cfg =
        .ok ⟨[Effect.ListSecrets, Effect.SetIngressHostname cfg.serviceHostname,
          Effect.PushProbeFile probeFilePath, Effect.HttpGet (probeUrl cfg.serviceHostname)],
          .Waiting "Cannot reach test file using Ingress Route. Retrying.", true⟩) := by
  have herr : w.probeResult = .error () →
      onConfigChanged env w cfg = .error .TransportErr := by
    intro hpe
    simp [onConfigChanged, hA, ensureCertificate, secretExists, ha, hh, hs,
      setupIngressRoute, hrel, checkIngressRoute, hpe]
  refine ⟨?_, herr, ?_, ?_⟩
  · intro code hc
    simp [checkIngressRoute, hc]
  · intro hpe r
    rw [herr hpe]
    simp
  · intro code hc hne
    simp [onConfigChanged, hA, ensureCertificate, secretExists, ha, hh, hs,
      setupIngressRoute, hrel, checkIngressRoute, hc, hne]

/-- Witness for C10: a transport-level probe failure escapes the trigger
as an error, while a 404 response yields the Waiting retry status. -/
theorem probe_transport_error_fatal_witness :
    onConfigChanged envE2E worldProbeErr cfgE2E = .error .TransportErr ∧
    onConfigChanged envE2E worldE2E2 cfgE2E =
      .ok ⟨[Effect.ListSecrets, Effect.SetIngressHostname "foo.li.sh",
        Effect.PushProbeFile probeFilePath, Effect.HttpGet (probeUrl "foo.li.sh")],
        .Waiting "Cannot reach test file using Ingress Route. Retrying.", true⟩ :=
  ⟨(probe_transport_error_fatal envE2E worldProbeErr cfgE2E
      rfl (by decide) rfl (by decide) rfl).2.1 rfl,
   (probe_transport_error_fatal envE2E worldE2E2 cfgE2E
      rfl (by decide) rfl (by decide) rfl).2.2.2 404 rfl (by decide)⟩

/-- C5 (spec-modelled): in the automatic config-change path of the
later-revision ensure flow, an unresolvable hostname makes the flow stop
with a Blocked status naming the hostname before any challenge setup
(the only effect is the Secret listing) and without deferring the event. -/
theorem resolve_failure_blocked_no_setup (env : ChEnv) (w : World) (cfg : Config)
    (hA : refreshCharmStatus env cfg = (.Active, true))
    (hh : cfg.serviceHostname ≠ "")
    (ha : w.apiFailure = none)
    (hs : deriveName cfg.serviceHostname ∉ w.existingSecrets)
    (hr : w.hostResolvable = false) :
    onConfigChangedR env w cfg =
      .ok ⟨[Effect.ListSecrets],
        .Blocked ("Cannot resolve hostname: '" ++ cfg.serviceHostname ++ "'"), false⟩ ∧
    ∀ o, onConfigChangedR env w cfg = .ok o →
      ∀ e ∈ o.trace, isMutatingEffect e = false := by
  have h1 : onConfigChangedR env w cfg =
      .ok ⟨[Effect.ListSecrets],
        .Blocked ("Cannot resolve hostname: '" ++ cfg.serviceHostname ++ "'"), false⟩ := by
    simp [onConfigChangedR, hA, ensureCertificateR, secretExists, ha, hh, hs, hr]
  refine ⟨h1, ?_⟩
  intro o ho e he
  rw [h1] at ho
  simp only [Except.ok.injEq] at ho
  subst ho
  simp only [List.mem_singleton] at he
  subst he
  rfl

/-- Witness for C5: the flow for foo.li.sh with no Secret and an
unresolvable hostname ends Blocked after only listing the Secrets. -/
theorem resolve_failure_blocked_no_setup_witness :
    onConfigChangedR envE2E worldUnresolvable cfgE2E =
      .ok ⟨[Effect.ListSecrets], .Blocked "Cannot resolve hostname: 'foo.li.sh'", false⟩ :=
  (resolve_failure_blocked_no_setup envE2E worldUnresolvable cfgE2E
    rfl (by decide) rfl (by decide) rfl).1

/-- C7 (spec-modelled): the renew-certificate action fails with
"service-hostname is not set." when the hostname config is unset, fails
with a message naming the hostname when it is not resolvable, and on
success returns a confirmation naming the hostname and writes the Secret
unconditionally — replacing it when one exists (bypassing the automatic
flow's existence short-circuit) and creating it otherwise. -/
theorem renew_action_validation_and_replace (w : World) (cfg : Config)
    (ha : w.apiFailure = none) (hp : w.probeResult = .ok 200) :
    (cfg.serviceHostname = "" →
      onRenewCertificateAction w cfg =
        .ok ⟨some "service-hostname is not set.", none, []⟩) ∧
    (cfg.serviceHostname ≠ "" → w.hostResolvable = false →
      onRenewCertificateAction w cfg =
        .ok ⟨some ("Cannot resolve hostname: '" ++ cfg.serviceHostname ++ "'"), none, []⟩) ∧
    (cfg.serviceHostname ≠ "" → w.hostResolvable = true →
      onRenewCertificateAction w cfg =
        .ok ⟨none, some ("Certificate renewed for " ++ cfg.serviceHostname),
          [Effect.SetIngressHostname cfg.serviceHostname, Effect.PushProbeFile probeFilePath,
            Effect.HttpGet (probeUrl cfg.serviceHostname), Effect.ListSecrets] ++
          (createCertificate w cfg cfg.serviceHostname).1 ++
          [if w.existingSecrets.contains (deriveName cfg.serviceHostname) then
              Effect.ReplaceSecret (deriveName cfg.serviceHostname)
                (secretData (createCertificate w cfg cfg.serviceHostname).2.1
                  (createCertificate w cfg cfg.serviceHostname).2.2)
            else
              Effect.CreateSecret (deriveName cfg.serviceHostname)
                (secretData (createCertificate w cfg cfg.serviceHostname).2.1
                  (createCertificate w cfg cfg.serviceHostname).2.2)]⟩) := by
  refine ⟨?_, ?_, ?_⟩
  · intro hh
    simp [onRenewCertificateAction, hh]
  · intro hh hr
    simp [onRenewCertificateAction, hh, hr]
  · intro hh hr
    simp [onRenewCertificateAction, hh, hr, setupIngressRoute, checkIngressRoute, hp,
      generateCertificateAndSecret, ha]

/-- Witness for C7: renewing foo.li.sh with the Secret already present
replaces it and returns the confirmation message. -/
theorem renew_action_validation_and_replace_witness :
    onRenewCertificateAction worldRenew cfgE2E =
      .ok ⟨none, some "Certificate renewed for foo.li.sh",
        [Effect.SetIngressHostname "foo.li.sh", Effect.PushProbeFile probeFilePath,
          Effect.HttpGet (probeUrl "foo.li.sh"), Effect.ListSecrets,
          Effect.Exec ["certbot", "certonly", "--agree-tos", "-n", "-m", "foo@li.sh",
            "-d", "foo.li.sh", "--webroot", "--webroot-path", "/usr/share/nginx/html"],
          Effect.PullFile "/etc/letsencrypt/live/foo.li.sh/fullchain.pem",
          Effect.PullFile "/etc/letsencrypt/live/foo.li.sh/privkey.pem",
          Effect.ReplaceSecret "foo-li-sh-tls" (secretData "some_cert" "some_key")]⟩ :=
  (renew_action_validation_and_replace worldRenew cfgE2E rfl rfl).2.2 (by decide) rfl

/-- C8: the get-secret-name action never changes the unit status; it fails
with a descriptive (nonempty) error message and no result whenever the
email is empty, the terms flag is unset, the hostname is empty or the
derived Secret does not exist, and in every other case it succeeds
returning exactly the derived secret name. -/
theorem get_secret_name_spec (w : World) (cfg : Config)
    (ha : w.apiFailure = none) :
    (∀ a, onGetSecretNameAction w cfg = .ok a → a.statusSet = none) ∧
    (getSecretPrecondMissing w cfg →
      ∃ m, onGetSecretNameAction w cfg = .ok ⟨some m, none, none⟩ ∧ m ≠ "") ∧
    (¬ getSecretPrecondMissing w cfg →
      onGetSecretNameAction w cfg =
        .ok ⟨none, some (deriveName cfg.serviceHostname), none⟩) := by
  have hmsg : ("Secret for '" ++ cfg.serviceHostname ++ "' does not exist." : String) ≠ "" := by
    simp [String.ext_iff, String.data_append]
  by_cases he : cfg.email = "" <;> by_cases ht : cfg.agreeTos = true <;>
    by_cases hh : cfg.serviceHostname = "" <;>
    by_cases hsm : deriveName cfg.serviceHostname ∈ w.existingSecrets <;>
    refine ⟨?_, ?_, ?_⟩ <;>
    simp_all [onGetSecretNameAction, secretExists, getSecretPrecondMissing, ha]

/-- Witness for C8: the action fails with a message when the Secret is
missing and returns the derived name when everything is in place. -/
theorem get_secret_name_spec_witness :
    (∃ m, onGetSecretNameAction worldE2E1 cfgE2E = .ok ⟨some m, none, none⟩ ∧ m ≠ "") ∧
    onGetSecretNameAction worldSecretExists cfgE2E =
      .ok ⟨none, some (deriveName "foo.li.sh"), none⟩ :=
  ⟨(get_secret_name_spec worldE2E1 cfgE2E rfl).2.1 (by decide),
   (get_secret_name_spec worldSecretExists cfgE2E rfl).2.2 (by decide)⟩

/-- Witness for C9: the derivation evaluated at foo.li.sh. -/
theorem derive_name_characters_witness :
    deriveName "foo.li.sh" = deriveName "foo.li.sh" ∧
    deriveName "foo.li.sh" =
      String.mk ("foo.li.sh".data.map (fun c => if isAlnumChar c then c else '-')) ++ "-tls" ∧
    ∀ c ∈ (deriveName "foo.li.sh").data, isAlnumChar c = true ∨ c = '-' :=
  derive_name_characters "foo.li.sh" "foo.li.sh" rfl

end CertbotK8s
